import Mathlib

/-
Shallow embedding of the useragent bot-classification engine (bot.go).
Go strings are modelled as lists of characters; the scope of the original
program is ASCII case-folding (non-ASCII normalization is an explicit
non-goal of the design), so byte indices and character indices coincide
on the inputs of interest. The bad-bot identifier list, loaded by the
external registry (LoadBadBotsYAML), is passed as an explicit parameter.
-/

namespace Useragent

abbrev Str := List Char

/-- ASCII lowercasing of a string, modelling strings.ToLower on the ASCII
inputs in scope. -/
def toLowerStr (s : Str) : Str := s.map Char.toLower

/-- Decides whether the first list is a leading segment of the second. -/
def isPrefixList : Str → Str → Bool
  | [], _ => true
  | _ :: _, [] => false
  | a :: as, b :: bs => a = b && isPrefixList as bs

/-- Position of the first occurrence of sub in s, modelling strings.Index
(which reports 0 for an empty pattern and -1, here none, when absent). -/
def strIndex : Str → Str → Option Nat
  | [], sub => if isPrefixList sub [] then some 0 else none
  | a :: t, sub =>
    if isPrefixList sub (a :: t) then some 0
    else (strIndex t sub).map (fun n => n + 1)

/-- Substring test, modelling strings.Contains. -/
def strContains (s sub : Str) : Bool := (strIndex s sub).isSome

/-- Whitespace predicate used by strings.TrimSpace (ASCII part). -/
def isSpace (c : Char) : Bool :=
  c == ' ' || c == '\t' || c == '\n' || c == '\x0b' || c == '\x0c' || c == '\r'

/-- Trims leading and trailing whitespace, modelling strings.TrimSpace. -/
def trimSpace (s : Str) : Str :=
  ((s.dropWhile isSpace).reverse.dropWhile isSpace).reverse

/-- Splits at the first occurrence of sep into two parts, modelling
strings.SplitN with limit 2: two parts when sep occurs, else one part. -/
def splitN2 (s : Str) (sep : Char) : List Str :=
  match strIndex s [sep] with
  | some i => [s.take i, s.drop (i + 1)]
  | none => [s]

/-- Word character class of the regular expression metacharacter w in
Go regexp (ASCII letters, digits and underscore). -/
def isWordChar (c : Char) : Bool := c.isAlphanum || c == '_'

/-- End position (exclusive) of the greedy match of the regex tail
.+\.\w+ starting at position k of s, if any: the one-or-more-characters
part cannot cross a newline, takes the longest extent first, then a
literal dot, then a maximal nonempty run of word characters. -/
def tailMatchEnd (s : Str) (k : Nat) : Option Nat :=
  let nn := ((s.drop k).takeWhile (fun c => !(c == '\n'))).length
  let cands := (List.range nn).filterMap (fun d =>
    let p := k + 1 + d
    match s.get? p, s.get? (p + 1) with
    | some cp, some cq => if cp == '.' && isWordChar cq then some p else none
    | _, _ => none)
  match cands.max? with
  | some p => some (p + 1 + ((s.drop (p + 1)).takeWhile isWordChar).length)
  | none => none

def httpLit : Str := ['h', 't', 't', 'p']

def schemeSepLit : Str := [':', '/', '/']

/-- End position (exclusive) of a match of the pattern
http[s]?://.+\.\w+ constrained to start at position i of s, if any. -/
def matchAt (s : Str) (i : Nat) : Option Nat :=
  if isPrefixList httpLit (s.drop i) then
    if isPrefixList ('s' :: schemeSepLit) (s.drop (i + 4)) then
      tailMatchEnd s (i + 8)
    else if isPrefixList schemeSepLit (s.drop (i + 4)) then
      tailMatchEnd s (i + 7)
    else none
  else none

/-- Leftmost match of the URL-shaped pattern in s, as start and end
positions; models botFromSiteRegexp.FindStringSubmatch finding a match. -/
def findMatch (s : Str) : Option (Nat × Nat) :=
  (List.range s.length).findSome? (fun i => (matchAt s i).map (fun e => (i, e)))

/-- Leftmost match of the URL-shaped pattern starting at or after a given
position. -/
def findMatchFrom (s : Str) (start : Nat) : Option (Nat × Nat) :=
  (List.range s.length).findSome? (fun i =>
    if start ≤ i then (matchAt s i).map (fun e => (i, e)) else none)

/-- Fuel-indexed loop counting successive non-overlapping leftmost
matches, advancing past each match as Go regexp FindAllString does. -/
def countMatchesAux (s : Str) : Nat → Nat → Nat
  | 0, _ => 0
  | fuel + 1, start =>
    match findMatchFrom s start with
    | some ie => 1 + countMatchesAux s fuel ie.2
    | none => 0

/-- Number of non-overlapping leftmost matches of the URL-shaped pattern
in s, as Go regexp FindAllString would count them. -/
def countMatches (s : Str) : Nat := countMatchesAux s (s.length + 1) 0

/-- One product[/version] [(comments)] unit of the header, as produced by
the tokenizer (type section of the Go package). -/
structure Section where
  name : Str
  version : Str
  comment : List Str
deriving DecidableEq, Inhabited

/-- Browser identity part of the record (fields Name, Version, Engine,
EngineVersion of the Go Browser struct). -/
structure Browser where
  name : Str
  version : Str
  engine : Str
  engineVersion : Str
deriving DecidableEq, Inhabited

/-- Modelled from the spec: the UserAgent receiver struct (IdentityRecord);
its declaration is outside the provided files, but every field below is
read or written by the provided code (ua, mozilla, platform, os,
localization, bot, undecided, browser). -/
structure UserAgent where
  ua : Str
  mozilla : Str
  platform : Str
  os : Str
  localization : Str
  bot : Bool
  undecided : Bool
  browser : Browser
deriving DecidableEq, Inhabited

/-- Gets the name of the bot from the website that may be in the given
comment (getFromSite of bot.go): index 0 when fewer than 3 fields, 3 when
exactly 4, else 2; on a regex match, the matched text itself at index 0,
otherwise the trimmed preceding field; empty string when no match. -/
def getFromSite (comment : List Str) : Str :=
  if comment.length = 0 then []
  else
    let idx := if comment.length < 3 then 0 else if comment.length = 4 then 3 else 2
    match findMatch (comment.getD idx []) with
    | some ie =>
      if idx = 0 then ((comment.getD idx []).drop ie.1).take (ie.2 - ie.1)
      else trimSpace (comment.getD (idx - 1) [])
    | none => []

def googleLit : Str := ['G', 'o', 'o', 'g', 'l', 'e']

def bingbotLit : Str := ['b', 'i', 'n', 'g', 'b', 'o', 't']

/-- Google or Bing mobile bot heuristic (googleOrBingBot of bot.go). -/
def googleOrBingBot (p : UserAgent) : Bool × UserAgent :=
  if strContains p.ua googleLit || strContains p.ua bingbotLit then
    let q := { p with platform := [], undecided := true }
    (q.undecided, q)
  else (p.undecided, p)

def facebookLit : Str :=
  ['f', 'a', 'c', 'e', 'b', 'o', 'o', 'k', 'e', 'x', 't', 'e', 'r', 'n', 'a', 'l', 'h', 'i', 't']

def twitterbotLit : Str := ['T', 'w', 'i', 't', 't', 'e', 'r', 'b', 'o', 't']

def iMessageLit : Str :=
  ['i', 'M', 'e', 's', 's', 'a', 'g', 'e', '-', 'P', 'r', 'e', 'v', 'i', 'e', 'w']

/-- iMessage-Preview impersonation heuristic (iMessagePreview of bot.go):
fires only when the raw header carries both the facebook and the twitter
bot markers; then sets the bot flag, the browser name, and clears the
engine and engine-version fields. -/
def iMessagePreview (p : UserAgent) : Bool × UserAgent :=
  if !(strContains p.ua facebookLit) then (false, p)
  else if !(strContains p.ua twitterbotLit) then (false, p)
  else
    (true, { p with
      bot := true,
      browser := { p.browser with name := iMessageLit, engine := [], engineVersion := [] } })

/-- Field-reset primitive (setSimple of bot.go): sets the bot flag, on the
non-bot branch clears the mozilla marker and sets name and version, on the
bot branch sets name and version only, then clears engine, engine version,
os and localization. -/
def setSimple (p : UserAgent) (name version : Str) (bot : Bool) : UserAgent :=
  let p1 := { p with bot := bot }
  let p2 :=
    if !bot then
      { p1 with mozilla := [],
                browser := { p1.browser with name := name, version := version } }
    else
      { p1 with browser := { p1.browser with name := name, version := version } }
  { p2 with browser := { p2.browser with engine := [], engineVersion := [] },
            os := [], localization := [] }

/-- Fallback identity assignment (fixOther of bot.go). -/
def fixOther (p : UserAgent) (sections : List Section) : UserAgent :=
  if 0 < sections.length then
    { p with browser := { p.browser with name := (sections.getD 0 default).name,
                                         version := (sections.getD 0 default).version },
             mozilla := [] }
  else p

/-- Plain case-insensitive containment check against the bad-bot list
(isKnownBadBot of bot.go). -/
def isKnownBadBot (bots : List Str) (s : Str) : Bool :=
  bots.any (fun bot => strContains (toLowerStr s) (toLowerStr bot))

/-- Accumulator of the inner identifier loop of checkBot: the configured
identifier that matched, the extracted version, and the original-case
matched text. -/
structure PosMatch where
  matched : Str
  matchedVersion : Str
  matchedOriginal : Str
deriving DecidableEq

/-- Truncation of a version token at the first space or semicolon, as the
rune loop of checkBot does. -/
def truncVer (ver : Str) : Str := ver.takeWhile (fun ch => !(ch == ' ') && !(ch == ';'))

/-- Inner loop of checkBot over the configured identifiers: stops at the
first identifier whose lowercased form occurs in the lowercased field,
records the original-case slice at the found index, and extracts a version
from the slice of the field starting at the found index split on the
first slash. -/
def scanBots (c : Str) : List Str → PosMatch
  | [] => ⟨[], [], []⟩
  | bot :: rest =>
    match strIndex (toLowerStr c) (toLowerStr bot) with
    | some idx =>
      let matchedOriginal := (c.drop idx).take bot.length
      let lowerC := c.drop idx
      let parts := splitN2 lowerC '/'
      let matchedVersion := if parts.length = 2 then truncVer (parts.getD 1 []) else []
      ⟨bot, matchedVersion, matchedOriginal⟩
    | none => scanBots c rest

/-- Outcome of the per-comment-field block of checkBot: when the inner
loop produced a nonempty matched identifier, the name to set (the
original-case text, falling back to the identifier itself if that text
were empty) and the extracted version. -/
def posMatchResult (bots : List Str) (c : Str) : Option (Str × Str) :=
  let m := scanBots c bots
  if m.matched ≠ [] then
    some ((if m.matchedOriginal = [] then m.matched else m.matchedOriginal), m.matchedVersion)
  else none

/-- Comment loop of the general branch of checkBot: first comment field
with a positional match wins. -/
def findCommentMatch (bots : List Str) : List Str → Option (Str × Str)
  | [] => none
  | c :: rest =>
    match posMatchResult bots c with
    | some r => some r
    | none => findCommentMatch bots rest

/-- Section loop of the general branch of checkBot: per section, the
comment positional match, then the site extractor with a slash split,
then the containment check on the section name; first hit finalizes. -/
def checkBotGeneralLoop (bots : List Str) (p : UserAgent) : List Section → Bool × UserAgent
  | [] => (false, p)
  | v :: rest =>
    match findCommentMatch bots v.comment with
    | some nv => (true, setSimple p nv.1 nv.2 true)
    | none =>
      let name := getFromSite v.comment
      if name ≠ [] then
        let results := splitN2 name '/'
        let version := if results.length = 2 then results.getD 1 [] else []
        (true, setSimple p (results.getD 0 []) version true)
      else if isKnownBadBot bots v.name then
        (true, setSimple p v.name v.version true)
      else checkBotGeneralLoop bots p rest

def mozillaLit : Str := ['M', 'o', 'z', 'i', 'l', 'l', 'a']

/-- Main decision procedure (checkBot of bot.go): single non-Mozilla
section path, else the general section loop; returns whether a bot was
detected together with the updated record. -/
def checkBot (bots : List Str) (p : UserAgent) (sections : List Section) : Bool × UserAgent :=
  if sections.length = 1 ∧ (sections.getD 0 default).name ≠ mozillaLit then
    if isKnownBadBot bots (sections.getD 0 default).name then
      (true, setSimple p (sections.getD 0 default).name (sections.getD 0 default).version true)
    else if getFromSite (sections.getD 0 default).comment ≠ [] then
      (true, setSimple p (sections.getD 0 default).name (sections.getD 0 default).version true)
    else (false, p)
  else checkBotGeneralLoop bots p sections

/-- Target-index selection of getFromSite, written as the specification
words it: 0 when fewer than 3 fields, 3 when exactly 4 fields, else 2. -/
def chosenIdx (n : Nat) : Nat :=
  if n < 3 then 0 else if n = 4 then 3 else 2

/-- Version extraction as the specification words it, applied to some tail
of the field: split on the first slash; when a second part exists, truncate
it at the first space or semicolon; otherwise the version is empty. -/
def specVersionFrom (tail : Str) : Str :=
  match splitN2 tail '/' with
  | [_, second] => truncVer second
  | _ => []

/-- Positional match written from the claim text as stated: scan the
identifiers in list order, stop at the first whose lowercased form occurs
in the lowercased field; the name is the original-case slice at the found
position with the identifier's length, and the version is extracted from
the substring starting immediately AFTER the match. -/
def specPosMatchClaim (c : Str) : List Str → Option (Str × Str)
  | [] => none
  | bot :: rest =>
    match strIndex (toLowerStr c) (toLowerStr bot) with
    | some idx =>
      some ((c.drop idx).take bot.length, specVersionFrom (c.drop (idx + bot.length)))
    | none => specPosMatchClaim c rest

/-- Positional match as amended: identical to the claim's wording except
that the version is extracted from the substring starting AT the found
position (so it includes the matched identifier text itself). -/
def specPosMatchAmended (c : Str) : List Str → Option (Str × Str)
  | [] => none
  | bot :: rest =>
    match strIndex (toLowerStr c) (toLowerStr bot) with
    | some idx =>
      some ((c.drop idx).take bot.length, specVersionFrom (c.drop idx))
    | none => specPosMatchAmended c rest

/-- Site-reference check of the general branch as the specification words
it: a nonempty getFromSite candidate split on the first slash into name
and version. -/
def siteCheck (comment : List Str) : Option (Str × Str) :=
  let name := getFromSite comment
  if name ≠ [] then
    let results := splitN2 name '/'
    some (results.getD 0 [], if results.length = 2 then results.getD 1 [] else [])
  else none

/-- Containment check of the general branch as the specification words it:
section name and version verbatim on a containment hit. -/
def nameCheck (bots : List Str) (v : Section) : Option (Str × Str) :=
  if isKnownBadBot bots v.name then some (v.name, v.version) else none

/-- Per-section decision of the general branch as the specification words
it: the three checks in strict precedence, first hit wins. -/
def sectionBotCheck (bots : List Str) (v : Section) : Option (Str × Str) :=
  match v.comment.findSome? (fun c => posMatchResult bots c) with
  | some r => some r
  | none =>
    match siteCheck v.comment with
    | some r => some r
    | none => nameCheck bots v

/-- Bounds-checked slice c[i : i+len], none exactly when the slice would
be out of range (the case in which the Go slice expression panics). -/
def sliceOpt (c : Str) (i len : Nat) : Option Str :=
  if i + len ≤ c.length then some ((c.drop i).take len) else none

/-
Concrete inputs used by counterexamples and witnesses.
-/

def gptbotLit : Str := "gptbot".toList

def gptFieldLit : Str := "GPTBot/1.1".toList

def xbotLit : Str := "xbot".toList

def xbotFieldLit : Str := "xbot/1.2.3;foo".toList

def slashBotLit : Str := "a/b".toList

def slashFieldLit : Str := "a/b/1.0".toList

def twoUrlLit : Str := "http://a.b\nhttp://c.d".toList

def googlebotLit : Str := "googlebot".toList

def p0 : UserAgent :=
  { ua := [], mozilla := [], platform := [], os := [], localization := [],
    bot := false, undecided := false, browser := ⟨[], [], [], []⟩ }

def pIMsg : UserAgent :=
  { ua := "Mozilla/5.0 facebookexternalhit/1.1 Twitterbot/1.0".toList,
    mozilla := "5.0".toList, platform := "Macintosh".toList, os := "OSX".toList,
    localization := "en".toList, bot := false, undecided := false,
    browser := ⟨"Firefox".toList, "1".toList, "Gecko".toList, "2".toList⟩ }

def sGpt : Section := ⟨gptbotLit, "9.9".toList, []⟩

def sCurl : Section := ⟨"curl".toList, "7.68.0".toList, []⟩

def sMoz : Section :=
  ⟨mozillaLit, "5.0".toList,
    ["compatible".toList, "GPTBot/1.0".toList, ";+https://openai.com/gptbot".toList]⟩

/-
Helper lemmas.
-/

theorem isPrefixList_length (sub : Str) : ∀ s : Str, isPrefixList sub s = true → sub.length ≤ s.length := by
  induction sub with
  | nil => intro s _; simp
  | cons a as ih =>
    intro s h
    cases s with
    | nil => simp [isPrefixList] at h
    | cons b bs =>
      simp only [isPrefixList, Bool.and_eq_true] at h
      simpa using Nat.succ_le_succ (ih bs h.2)

theorem strIndex_bound (sub : Str) : ∀ s : Str, ∀ i : Nat,
    strIndex s sub = some i → i + sub.length ≤ s.length := by
  intro s
  induction s with
  | nil =>
    intro i h
    simp only [strIndex] at h
    split at h
    · cases h
      simpa using isPrefixList_length sub [] (by assumption)
    · cases h
  | cons a t ih =>
    intro i h
    simp only [strIndex] at h
    split at h
    · cases h
      simpa using isPrefixList_length sub (a :: t) (by assumption)
    · rw [Option.map_eq_some'] at h
      obtain ⟨j, hj, rfl⟩ := h
      have := ih j hj
      simp only [List.length_cons]
      omega

theorem toLowerStr_length (s : Str) : (toLowerStr s).length = s.length := by
  simp [toLowerStr]

/-
C8: the field-reset contract of setSimple.
-/

/-- C8: setSimple sets browser name and version to its arguments, clears
engine, engine version, os and localization, sets the bot flag to the
given value, clears the mozilla marker exactly when the bot flag is
false, and leaves the raw header, platform and undecided flag unchanged. -/
theorem C8_setSimple (p : UserAgent) (n v : Str) (b : Bool) :
    (setSimple p n v b).browser.name = n
  ∧ (setSimple p n v b).browser.version = v
  ∧ (setSimple p n v b).browser.engine = []
  ∧ (setSimple p n v b).browser.engineVersion = []
  ∧ (setSimple p n v b).os = []
  ∧ (setSimple p n v b).localization = []
  ∧ (setSimple p n v b).bot = b
  ∧ (setSimple p n v b).mozilla = (if b = true then p.mozilla else [])
  ∧ (setSimple p n v b).ua = p.ua
  ∧ (setSimple p n v b).platform = p.platform
  ∧ (setSimple p n v b).undecided = p.undecided := by
  cases b <;> simp [setSimple]

/-
C9: idempotence of setSimple.
-/

/-- C9: calling setSimple twice in a row with identical arguments leaves
the record in the same state as calling it once. -/
theorem C9_setSimple_idem (p : UserAgent) (n v : Str) (b : Bool) :
    setSimple (setSimple p n v b) n v b = setSimple p n v b := by
  cases b <;> rfl

/-
C1: which finalization paths clear engine, engine version, os and
localization. The claim as stated fails on iMessagePreview, which leaves
os and localization untouched.
-/

/-- C1 counterexample: on a record with nonempty os and localization whose
header carries both impersonation markers, iMessagePreview finalizes a bot
decision (returns true and sets the bot flag) yet leaves os and
localization nonempty, contradicting the claim that every such operation
clears them. -/
theorem C1_counterexample :
    (iMessagePreview pIMsg).1 = true
  ∧ (iMessagePreview pIMsg).2.bot = true
  ∧ (iMessagePreview pIMsg).2.os ≠ ([] : Str)
  ∧ (iMessagePreview pIMsg).2.localization ≠ ([] : Str) := by decide

/-- C1 amended: every finalization through setSimple (all checkBot paths)
clears engine, engine version, os and localization; iMessagePreview
clears only engine and engine version when it fires, and never modifies
os or localization. -/
theorem C1_clears (p : UserAgent) (n v : Str) (b : Bool) :
    ((setSimple p n v b).browser.engine = []
      ∧ (setSimple p n v b).browser.engineVersion = []
      ∧ (setSimple p n v b).os = []
      ∧ (setSimple p n v b).localization = [])
  ∧ (iMessagePreview p).2.os = p.os
  ∧ (iMessagePreview p).2.localization = p.localization
  ∧ (iMessagePreview p).2.browser.engine
      = (if (iMessagePreview p).1 = true then [] else p.browser.engine)
  ∧ (iMessagePreview p).2.browser.engineVersion
      = (if (iMessagePreview p).1 = true then [] else p.browser.engineVersion) := by
  constructor
  · cases b <;> simp [setSimple]
  · cases h1 : strContains p.ua facebookLit <;>
      cases h2 : strContains p.ua twitterbotLit <;>
        simp [iMessagePreview, h1, h2]

/-
C2: the single-section bad-bot path. The claim as stated requires a final
browser version equal to the empty string; the code passes the section's
own version through.
-/

/-- C2 counterexample: a single non-Mozilla section whose name is a
configured identifier but whose version is nonempty is finalized with
that nonempty version, contradicting the claimed empty version. -/
theorem C2_counterexample :
    (checkBot [gptbotLit] p0 [sGpt]).1 = true
  ∧ (checkBot [gptbotLit] p0 [sGpt]).2.browser.version ≠ ([] : Str)
  ∧ (checkBot [gptbotLit] p0 [sGpt]).2.browser.version = sGpt.version := by decide

/-- C2 amended: for a single section whose name is not Mozilla and passes
the plain containment check, checkBot returns true and finalizes the
record as a bot with the section's name and the section's version. -/
theorem C2_single (bots : List Str) (p : UserAgent) (s : Section)
    (h1 : s.name ≠ mozillaLit) (h2 : isKnownBadBot bots s.name = true) :
    (checkBot bots p [s]).1 = true
  ∧ (checkBot bots p [s]).2.bot = true
  ∧ (checkBot bots p [s]).2.browser.name = s.name
  ∧ (checkBot bots p [s]).2.browser.version = s.version := by
  simp [checkBot, h1, h2, setSimple]

/-- C2 witness: the amended single-section theorem applied to the gptbot
section with version 9.9 against the identifier list containing gptbot. -/
theorem C2_witness :
    (checkBot [gptbotLit] p0 [sGpt]).1 = true
  ∧ (checkBot [gptbotLit] p0 [sGpt]).2.bot = true
  ∧ (checkBot [gptbotLit] p0 [sGpt]).2.browser.name = sGpt.name
  ∧ (checkBot [gptbotLit] p0 [sGpt]).2.browser.version = sGpt.version :=
  C2_single [gptbotLit] p0 sGpt (by decide) (by decide)

/-
C7: frame property of checkBot on the false path.
-/

theorem checkBotGeneralLoop_frame (bots : List Str) (p : UserAgent) :
    ∀ l : List Section, (checkBotGeneralLoop bots p l).1 = false →
      (checkBotGeneralLoop bots p l).2 = p
  | [], _ => rfl
  | v :: rest, h => by
    cases hm : findCommentMatch bots v.comment with
    | some nv =>
      rw [checkBotGeneralLoop] at h
      rw [hm] at h
      simp at h
    | none =>
      by_cases hg : getFromSite v.comment = []
      · by_cases hk : isKnownBadBot bots v.name = true
        · rw [checkBotGeneralLoop] at h
          rw [hm] at h
          simp [hg, hk] at h
        · have h' : (checkBotGeneralLoop bots p rest).1 = false := by
            rw [checkBotGeneralLoop] at h
            rw [hm] at h
            simpa [hg, hk] using h
          have hrec := checkBotGeneralLoop_frame bots p rest h'
          rw [checkBotGeneralLoop, hm]
          simpa [hg, hk] using hrec
      · rw [checkBotGeneralLoop] at h
        rw [hm] at h
        simp [hg] at h

/-- C7: whenever checkBot returns false, the identity record is left
completely unchanged. -/
theorem C7_frame (bots : List Str) (p : UserAgent) (sections : List Section)
    (h : (checkBot bots p sections).1 = false) :
    (checkBot bots p sections).2 = p := by
  rw [checkBot] at h ⊢
  by_cases hc : sections.length = 1 ∧ (sections.getD 0 default).name ≠ mozillaLit
  · rw [if_pos hc] at h ⊢
    by_cases hk : isKnownBadBot bots (sections.getD 0 default).name = true
    · rw [if_pos hk] at h
      exact absurd h (by simp)
    · rw [if_neg hk] at h ⊢
      by_cases hg : getFromSite (sections.getD 0 default).comment ≠ []
      · rw [if_pos hg] at h
        exact absurd h (by simp)
      · rw [if_neg hg] at h ⊢
  · rw [if_neg hc] at h ⊢
    exact checkBotGeneralLoop_frame bots p sections h

/-- C7 witness: a single curl section against an identifier list it does
not match, the point named by the claim: false is returned and the record
is unmodified. -/
theorem C7_witness :
    (checkBot [googlebotLit] p0 [sCurl]).1 = false
  ∧ (checkBot [googlebotLit] p0 [sCurl]).2 = p0 :=
  ⟨by decide, C7_frame [googlebotLit] p0 [sCurl] (by decide)⟩

/-
C3: the positional comment-field match. The claim as stated extracts the
version from the substring starting immediately after the match; the code
starts at the match, which differs once a configured identifier itself
contains a slash.
-/

theorem matchedOriginal_ne_nil (c bot : Str) (idx : Nat) (hb : bot ≠ [])
    (h : strIndex (toLowerStr c) (toLowerStr bot) = some idx) :
    (c.drop idx).take bot.length ≠ [] := by
  have hbound := strIndex_bound (toLowerStr bot) (toLowerStr c) idx h
  rw [toLowerStr_length, toLowerStr_length] at hbound
  have hlen : ((c.drop idx).take bot.length).length = bot.length := by
    simp only [List.length_take, List.length_drop]
    omega
  intro hnil
  rw [hnil] at hlen
  simp only [List.length_nil] at hlen
  exact hb (List.eq_nil_of_length_eq_zero hlen.symm)

theorem scanVersion_eq_spec (tail : Str) :
    (if (splitN2 tail '/').length = 2 then truncVer ((splitN2 tail '/').getD 1 []) else [])
      = specVersionFrom tail := by
  cases h : strIndex tail [ '/' ] with
  | some i => simp [splitN2, specVersionFrom, h]
  | none => simp [splitN2, specVersionFrom, h]

theorem posMatchResult_eq_spec (c : Str) : ∀ bots : List Str,
    (∀ b ∈ bots, b ≠ ([] : Str)) →
    posMatchResult bots c = specPosMatchAmended c bots
  | [], _ => rfl
  | bot :: rest, hb => by
    have hbot : bot ≠ [] := hb bot (List.mem_cons_self bot rest)
    have hrest : ∀ b ∈ rest, b ≠ ([] : Str) := fun b h' => hb b (List.mem_cons_of_mem bot h')
    cases h : strIndex (toLowerStr c) (toLowerStr bot) with
    | some idx =>
      have hne := matchedOriginal_ne_nil c bot idx hbot h
      simp only [posMatchResult, scanBots, specPosMatchAmended, h]
      rw [if_pos hbot, if_neg hne, scanVersion_eq_spec]
    | none =>
      have hl : posMatchResult (bot :: rest) c = posMatchResult rest c := by
        simp only [posMatchResult, scanBots, h]
      rw [hl]
      simp only [specPosMatchAmended, h]
      exact posMatchResult_eq_spec c rest hrest

/-- C3 counterexample: with the configured identifier a/b (which contains
a slash) matching the field a/b/1.0, the claimed extraction (substring
immediately after the match) yields version 1.0, while the code (substring
starting at the match) yields b/1.0, so the claim as stated fails. -/
theorem C3_counterexample :
    specPosMatchClaim slashFieldLit [slashBotLit]
      = some (("a/b".toList : Str), ("1.0".toList : Str))
  ∧ posMatchResult [slashBotLit] slashFieldLit
      = some (("a/b".toList : Str), ("b/1.0".toList : Str))
  ∧ ("1.0".toList : Str) ≠ ("b/1.0".toList : Str) := by decide

/-- C3 amended: for identifier lists without an empty identifier, the
positional match returns the original-case slice at the found position
with the identifier's length as name, and the version extracted from the
substring of the field starting AT (not immediately after) the found
position, split on the first slash and truncated at the first space or
semicolon; the gptbot and xbot examples behave as the claim states. -/
theorem C3_posMatch (bots : List Str) (c : Str) (hb : ∀ b ∈ bots, b ≠ ([] : Str)) :
    posMatchResult bots c = specPosMatchAmended c bots
  ∧ posMatchResult [gptbotLit] gptFieldLit
      = some (("GPTBot".toList : Str), ("1.1".toList : Str))
  ∧ posMatchResult [xbotLit] xbotFieldLit
      = some (("xbot".toList : Str), ("1.2.3".toList : Str)) :=
  ⟨posMatchResult_eq_spec c bots hb, by decide, by decide⟩

/-- C3 witness: the amended theorem applied to the gptbot identifier list
and the GPTBot field. -/
theorem C3_witness :
    posMatchResult [gptbotLit, xbotLit] gptFieldLit
      = specPosMatchAmended gptFieldLit [gptbotLit, xbotLit]
  ∧ posMatchResult [gptbotLit] gptFieldLit
      = some (("GPTBot".toList : Str), ("1.1".toList : Str))
  ∧ posMatchResult [xbotLit] xbotFieldLit
      = some (("xbot".toList : Str), ("1.2.3".toList : Str)) :=
  C3_posMatch [gptbotLit, xbotLit] gptFieldLit (by decide)

/-
C4: structure of the general-case path.
-/

theorem findCommentMatch_eq (bots : List Str) : ∀ l : List Str,
    findCommentMatch bots l = l.findSome? (fun c => posMatchResult bots c)
  | [] => rfl
  | c :: rest => by
    simp only [findCommentMatch, List.findSome?_cons]
    cases posMatchResult bots c with
    | some r => rfl
    | none => exact findCommentMatch_eq bots rest

theorem checkBotGeneralLoop_cons (bots : List Str) (p : UserAgent) (v : Section)
    (rest : List Section) :
    checkBotGeneralLoop bots p (v :: rest) =
      (match sectionBotCheck bots v with
       | some nv => (true, setSimple p nv.1 nv.2 true)
       | none => checkBotGeneralLoop bots p rest) := by
  simp only [checkBotGeneralLoop, sectionBotCheck, findCommentMatch_eq]
  cases hm : (v.comment.findSome? fun c => posMatchResult bots c) with
  | some nv => rfl
  | none =>
    simp only [siteCheck, nameCheck]
    by_cases hg : getFromSite v.comment = []
    · by_cases hk : isKnownBadBot bots v.name = true
      · simp [hg, hk]
      · simp [hg, hk]
    · simp [hg]

theorem checkBotGeneralLoop_eq (bots : List Str) (p : UserAgent) : ∀ l : List Section,
    checkBotGeneralLoop bots p l =
      (match l.findSome? (fun v => sectionBotCheck bots v) with
       | some nv => (true, setSimple p nv.1 nv.2 true)
       | none => (false, p))
  | [] => rfl
  | v :: rest => by
    rw [checkBotGeneralLoop_cons, List.findSome?_cons]
    cases hs : sectionBotCheck bots v with
    | some nv => rfl
    | none => simpa using checkBotGeneralLoop_eq bots p rest

/-- C4: on the general-case path (more than one section, or a single
section named Mozilla), checkBot behaves as the first section, in order,
whose checks produce a match, where each section tries in strict
precedence the positional comment-field match (fields in order), then
getFromSite split on the first slash, then the plain containment check on
the section name with name and version verbatim; it returns false with no
match in any section. -/
theorem C4_general (bots : List Str) (p : UserAgent) (sections : List Section)
    (h : 1 < sections.length
       ∨ (sections.length = 1 ∧ (sections.getD 0 default).name = mozillaLit)) :
    checkBot bots p sections =
      (match sections.findSome? (fun v => sectionBotCheck bots v) with
       | some nv => (true, setSimple p nv.1 nv.2 true)
       | none => (false, p)) := by
  have hneg : ¬(sections.length = 1 ∧ (sections.getD 0 default).name ≠ mozillaLit) := by
    rcases h with h1 | ⟨h1, h2⟩
    · intro hc
      obtain ⟨hl, -⟩ := hc
      omega
    · intro hc
      exact hc.2 h2
  rw [checkBot, if_neg hneg]
  exact checkBotGeneralLoop_eq bots p sections

/-- C4 witness: the single-Mozilla-section scenario with a GPTBot comment
field, instantiating the general-path characterization. -/
theorem C4_witness :
    checkBot [gptbotLit] p0 [sMoz] =
      (match ([sMoz] : List Section).findSome? (fun v => sectionBotCheck [gptbotLit] v) with
       | some nv => (true, setSimple p0 nv.1 nv.2 true)
       | none => (false, p0)) :=
  C4_general [gptbotLit] p0 [sMoz] (Or.inr ⟨by decide, by decide⟩)

/-
C5 and C6: getFromSite match requirement and index selection. The regex
lookup of getFromSite uses FindStringSubmatch, which reports the leftmost
match; C5's exactly-one-match reading fails: a field the pattern matches
twice still yields a nonempty result.
-/

theorem getFromSite_char (comment : List Str) (h : comment ≠ []) :
    getFromSite comment =
      (match findMatch (comment.getD (chosenIdx comment.length) []) with
       | some ie =>
         if chosenIdx comment.length = 0
         then ((comment.getD (chosenIdx comment.length) []).drop ie.1).take (ie.2 - ie.1)
         else trimSpace (comment.getD (chosenIdx comment.length - 1) [])
       | none => []) := by
  have h0 : ¬ comment.length = 0 := by
    simpa [List.length_eq_zero] using h
  rw [getFromSite, if_neg h0]
  rfl

theorem findMatchFrom_zero (s : Str) : findMatchFrom s 0 = findMatch s := by
  simp [findMatchFrom, findMatch]

theorem countMatches_zero_iff (s : Str) : countMatches s = 0 ↔ findMatch s = none := by
  rw [countMatches]
  simp only [countMatchesAux, findMatchFrom_zero]
  cases findMatch s <;> simp

/-- C5 counterexample: a comment whose chosen field the URL-shaped pattern
matches twice still produces a nonempty getFromSite result, contradicting
the claimed exactly-one-match requirement. -/
theorem C5_counterexample :
    countMatches twoUrlLit = 2 ∧ getFromSite [twoUrlLit] ≠ ([] : Str) := by decide

/-- C5 amended: getFromSite yields a nonempty result only when the
URL-shaped pattern matches the field at the chosen target index at least
once (the leftmost match is used); when the pattern does not match there,
the result is empty; more than one match does not force emptiness. -/
theorem C5_matchCount (comment : List Str) (h : comment ≠ []) :
    (getFromSite comment = ([] : Str)
       ∨ 1 ≤ countMatches (comment.getD (chosenIdx comment.length) []))
  ∧ (findMatch (comment.getD (chosenIdx comment.length) []) ≠ none
       ∨ getFromSite comment = []) := by
  rw [getFromSite_char comment h]
  cases hf : findMatch (comment.getD (chosenIdx comment.length) []) with
  | none => exact ⟨Or.inl rfl, Or.inr rfl⟩
  | some ie =>
    constructor
    · right
      have hne : countMatches (comment.getD (chosenIdx comment.length) []) ≠ 0 := by
        rw [ne_eq, countMatches_zero_iff, hf]
        simp
      omega
    · left
      simp [hf]

/-- C5 witness: the amended theorem at the one-field comment the pattern
matches twice. -/
theorem C5_witness :
    (getFromSite [twoUrlLit] = ([] : Str)
       ∨ 1 ≤ countMatches (([twoUrlLit] : List Str).getD (chosenIdx ([twoUrlLit] : List Str).length) []))
  ∧ (findMatch (([twoUrlLit] : List Str).getD (chosenIdx ([twoUrlLit] : List Str).length) []) ≠ none
       ∨ getFromSite [twoUrlLit] = []) :=
  C5_matchCount [twoUrlLit] (by decide)

def cmt4 : List Str := ["a".toList, "b".toList, "c".toList, "http://x.y".toList]

/-- C6: getFromSite inspects index 0 when the list has fewer than 3
fields, index 3 when it has exactly 4, and index 2 otherwise; when the
field at the chosen index has no URL-shaped match the result is empty
regardless of the other fields (the characterization depends only on that
field); and an empty list yields the empty string. -/
theorem C6_indexSelection (comment : List Str) (n : Nat) (h : comment ≠ []) (h5 : 5 ≤ n) :
    getFromSite ([] : List Str) = ([] : Str)
  ∧ chosenIdx 1 = 0 ∧ chosenIdx 2 = 0 ∧ chosenIdx 4 = 3 ∧ chosenIdx 3 = 2 ∧ chosenIdx n = 2
  ∧ getFromSite comment =
      (match findMatch (comment.getD (chosenIdx comment.length) []) with
       | some ie =>
         if chosenIdx comment.length = 0
         then ((comment.getD (chosenIdx comment.length) []).drop ie.1).take (ie.2 - ie.1)
         else trimSpace (comment.getD (chosenIdx comment.length - 1) [])
       | none => []) := by
  refine ⟨by decide, by decide, by decide, by decide, by decide, ?_, getFromSite_char comment h⟩
  rw [chosenIdx, if_neg (by omega), if_neg (by omega)]

/-- C6 witness: the index-selection theorem at a four-field comment whose
URL-shaped field sits at index 3, with 7 as the at-least-5 length. -/
theorem C6_witness :
    getFromSite ([] : List Str) = ([] : Str)
  ∧ chosenIdx 1 = 0 ∧ chosenIdx 2 = 0 ∧ chosenIdx 4 = 3 ∧ chosenIdx 3 = 2 ∧ chosenIdx 7 = 2
  ∧ getFromSite cmt4 =
      (match findMatch (cmt4.getD (chosenIdx cmt4.length) []) with
       | some ie =>
         if chosenIdx cmt4.length = 0
         then ((cmt4.getD (chosenIdx cmt4.length) []).drop ie.1).take (ie.2 - ie.1)
         else trimSpace (cmt4.getD (chosenIdx cmt4.length - 1) [])
       | none => []) :=
  C6_indexSelection cmt4 7 (by decide) (by decide)

/-
C10: in-bounds safety of the original-case slice in the positional match.
-/

/-- C10: for ASCII field and identifier (lowercasing is length-preserving
there, and in this character-level embedding byte and character positions
coincide), the index found by the case-insensitive search plus the
identifier's length never exceeds the field's length, so the slice taken
from the original-case field is in bounds and the out-of-range outcome of
the bounds-checked slice is unreachable. -/
theorem C10_slice_safe (c bot : Str) (idx : Nat)
    (_hc : ∀ ch ∈ c, ch.toNat < 128) (_hbot : ∀ ch ∈ bot, ch.toNat < 128)
    (h : strIndex (toLowerStr c) (toLowerStr bot) = some idx) :
    idx + bot.length ≤ c.length
  ∧ sliceOpt c idx bot.length = some ((c.drop idx).take bot.length) := by
  have hb := strIndex_bound (toLowerStr bot) (toLowerStr c) idx h
  rw [toLowerStr_length, toLowerStr_length] at hb
  refine ⟨hb, ?_⟩
  rw [sliceOpt, if_pos hb]

/-- C10 witness: the in-bounds theorem at the GPTBot field and the gptbot
identifier, found at index 0. -/
theorem C10_witness :
    0 + gptbotLit.length ≤ gptFieldLit.length
  ∧ sliceOpt gptFieldLit 0 gptbotLit.length
      = some ((gptFieldLit.drop 0).take gptbotLit.length) :=
  C10_slice_safe gptFieldLit gptbotLit 0 (by decide) (by decide) (by decide)

end Useragent
